import Mathlib

/-!
Verification development for `scripts/prune-state-vscdb.ts`, a maintenance
utility that prunes SQLite `state.vscdb` databases: it parses command-line
flags, locates an external `sqlite3` engine, and issues a small fixed set of
SQL statements (COUNT / DELETE with a LIKE pattern, VACUUM, PRAGMA
quick_check / integrity_check).

The script's own logic (argument parsing, SQL text construction, branch
structure, engine discovery) is embedded directly from the source.  The
external SQLite engine is not part of the repository; the row-level effect of
the issued SQL statements (LIKE matching, ORDER BY rowid DESC LIMIT n,
DELETE ... WHERE, string-literal lexing) is modelled from the spec's
documented SQL subset, and those definitions say so in their doc comments.
-/

/-- The single-quote character (code point 39), written via `Char.ofNat`. -/
def sqc : Char := Char.ofNat 39

/-- Observable engine interactions of one run: locating the sqlite3 engine
(`getSqlite3Command`) and issuing one SQL statement to it. -/
inductive Event where
  | discover : Event
  | sqlQuery : String → Event
deriving DecidableEq

/-- One row of a `state.vscdb` table: the SQLite insertion-order identifier
`rowid` plus the `key` and `value` columns. -/
structure Row where
  rowid : Nat
  key : String
  value : String
deriving DecidableEq

/-- A `state.vscdb` database: the two tables the script knows about. -/
structure Db where
  itemTable : List Row
  cursorDiskKV : List Row
deriving DecidableEq

/-- `ALLOWED_TABLES` (src/prune-state-vscdb.ts line 34). -/
def ALLOWED_TABLES : List String := ["ItemTable", "cursorDiskKV"]

/-- Select a table of the database by its SQL name; an unknown name denotes no
rows (the engine would reject the statement; no row is ever touched). -/
def Db.getTable (db : Db) (t : String) : List Row :=
  if t = "ItemTable" then db.itemTable
  else if t = "cursorDiskKV" then db.cursorDiskKV
  else []

/-- Replace a table of the database by its SQL name; an unknown name leaves the
database unchanged. -/
def Db.setTable (db : Db) (t : String) (rows : List Row) : Db :=
  if t = "ItemTable" then { db with itemTable := rows }
  else if t = "cursorDiskKV" then { db with cursorDiskKV := rows }
  else db

/-- All suffixes of a character list, longest first. -/
def suffixList : List Char → List (List Char)
  | [] => [[]]
  | c :: t => (c :: t) :: suffixList t

/-- Modelled from the spec: the external SQLite engine's `LIKE` operator
("`%` = any run of characters", `_` = exactly one character, any other
pattern character matches itself).  The engine is an external collaborator of
the repository, so the matching semantics come from the spec's glossary. -/
def likeM : List Char → List Char → Bool
  | [], s => s.isEmpty
  | c :: ps, s =>
    if c = '%' then (suffixList s).any (fun t => likeM ps t)
    else if c = '_' then
      match s with
      | [] => false
      | _ :: t => likeM ps t
    else
      match s with
      | [] => false
      | d :: t => c = d && likeM ps t

/-- `key LIKE pattern` on strings. -/
def likeMatch (pattern key : String) : Bool := likeM pattern.data key.data

/-- One step of `pattern.replace(/'/g, "''")`: a single quote becomes two. -/
def escChar (c : Char) : List Char := if c = sqc then [sqc, sqc] else [c]

/-- `const escaped = pattern.replace(/'/g, "''")` (line 367 and line 454). -/
def sqlEscape (s : String) : String := ⟨(s.data.map escChar).flatten⟩

/-- `const likeLiteral = `'${escaped}'`` (line 368 and line 455): the quoted
pattern literal embedded into the SQL text. -/
def likeLiteral (pattern : String) : String :=
  String.mk (sqc :: ((sqlEscape pattern).data ++ [sqc]))

/-- The COUNT statement of `deleteKeysAndVacuum` (line 371) and
`countCategories` (line 458). -/
def countSql (table pattern : String) : String :=
  "SELECT COUNT(*) FROM " ++ table ++ " WHERE key LIKE " ++ likeLiteral pattern ++ ";"

/-- The delete-all statement of `deleteKeysAndVacuum` (line 394). -/
def deleteAllSql (table pattern : String) : String :=
  "DELETE FROM " ++ table ++ " WHERE key LIKE " ++ likeLiteral pattern ++ ";"

/-- The retention delete statement of `deleteKeysAndVacuum` (line 389). -/
def deleteKeepSql (table pattern : String) (keepLast : Nat) : String :=
  "DELETE FROM " ++ table ++ " WHERE key LIKE " ++ likeLiteral pattern ++
    " AND rowid NOT IN (SELECT rowid FROM " ++ table ++ " WHERE key LIKE " ++
    likeLiteral pattern ++ " ORDER BY rowid DESC LIMIT " ++ toString keepLast ++ ");"

/-- Modelled from the spec: `ORDER BY rowid DESC` — sort in decreasing order. -/
def sortDesc (l : List Nat) : List Nat := l.insertionSort (fun a b => a ≥ b)

/-- Modelled from the spec: the subquery `SELECT rowid FROM t WHERE key LIKE p
ORDER BY rowid DESC LIMIT n` — the `n` largest rowids among matching rows. -/
def keepRowids (tbl : List Row) (pattern : String) (n : Nat) : List Nat :=
  (sortDesc ((tbl.filter (fun r => likeMatch pattern r.key)).map Row.rowid)).take n

/-- `deleteKeysAndVacuum` (lines 365-400): locate the engine, count the rows of
`table` whose key is LIKE `pattern`; if none, stop after the count.  With
`keepLast = some n`, stop when `max(0, count - n) = 0`, otherwise delete the
matching rows whose rowid is not among the `n` largest matching rowids.  With
`keepLast = none`, delete every matching row.  Finally VACUUM (the located
engine is passed to `vacuumDatabase`, so no second discovery happens).
Returns the resulting database and the trace of engine events; the row-level
effect of each SQL statement is modelled from the spec's documented SQL
subset (VACUUM does not change logical content). -/
def deleteKeysAndVacuum (db : Db) (pattern table : String) (keepLast : Option Nat) :
    Db × List Event :=
  let tbl := db.getTable table
  let c := (tbl.filter (fun r => likeMatch pattern r.key)).length
  if c = 0 then (db, [Event.discover, Event.sqlQuery (countSql table pattern)])
  else
    match keepLast with
    | some n =>
      if c - n = 0 then (db, [Event.discover, Event.sqlQuery (countSql table pattern)])
      else
        let keep := keepRowids tbl pattern n
        let tbl2 := tbl.filter (fun r => !(likeMatch pattern r.key) || decide (r.rowid ∈ keep))
        (db.setTable table tbl2,
         [Event.discover, Event.sqlQuery (countSql table pattern),
          Event.sqlQuery (deleteKeepSql table pattern n), Event.sqlQuery "VACUUM;"])
    | none =>
      let tbl2 := tbl.filter (fun r => !(likeMatch pattern r.key))
      (db.setTable table tbl2,
       [Event.discover, Event.sqlQuery (countSql table pattern),
        Event.sqlQuery (deleteAllSql table pattern), Event.sqlQuery "VACUUM;"])

/-- Whitespace as trimmed by JavaScript `.trim()` (the common ASCII cases). -/
def isWsChar (c : Char) : Bool :=
  c = ' ' || c = Char.ofNat 9 || c = Char.ofNat 10 || c = Char.ofNat 13 || c = Char.ofNat 12 || c = Char.ofNat 11

/-- JavaScript `.trim()`: drop leading and trailing whitespace. -/
def jsTrim (s : String) : String :=
  ⟨((s.data.dropWhile isWsChar).reverse.dropWhile isWsChar).reverse⟩

/-- `checkIntegrity` (lines 403-432): locate the engine, run
`PRAGMA quick_check`; when its trimmed output is not exactly "ok", report
failure without issuing anything further; otherwise run
`PRAGMA integrity_check` and report whether that returned "ok".
`quickOut` / `integrityOut` are the raw engine outputs of the two PRAGMAs. -/
def checkIntegrity (quickOut integrityOut : String) : Bool × List Event :=
  if jsTrim quickOut = "ok" then
    (jsTrim integrityOut == "ok",
     [Event.discover, Event.sqlQuery "PRAGMA quick_check;",
      Event.sqlQuery "PRAGMA integrity_check;"])
  else
    (false, [Event.discover, Event.sqlQuery "PRAGMA quick_check;"])

/-- The `--check-integrity` branch of `main` (lines 501-512): run
`checkIntegrity` on every discovered database in turn, counting successes and
accumulating the engine-event trace.  Each database is represented by the
engine's outputs for its two PRAGMA statements. -/
def mainIntegrityRun (dbs : List (String × String)) : Nat × List Event :=
  dbs.foldl
    (fun acc qi =>
      let r := checkIntegrity qi.1 qi.2
      (acc.1 + (if r.1 then 1 else 0), acc.2 ++ r.2))
    (0, [])

/-- Number of engine-discovery events in a trace. -/
def discoverCount (tr : List Event) : Nat :=
  (tr.filter (fun e => decide (e = Event.discover))).length

/-- The static fallback locations scanned by `getSqlite3Command`
(lines 212-216); `localAppData` models `process.env.LOCALAPPDATA || ''` and
the third entry models `join(localAppData, 'Programs', 'sqlite3',
'sqlite3.exe')` with the Windows separator. -/
def winPaths (localAppData : String) : List String :=
  ["C:\\Program Files\\SQLite\\sqlite3.exe",
   "C:\\Program Files (x86)\\SQLite\\sqlite3.exe",
   localAppData ++ "\\Programs\\sqlite3\\sqlite3.exe"]

/-- `getSqlite3Command` (lines 206-224): first try `sqlite3 --version` through
the process's command search path (`pathOk`), then scan the static fallback
list with `existsSync` (`fileEx`), and fail only when every probe fails.  The
body holds no cache: every call repeats this discovery. -/
def getSqlite3Command (pathOk : Bool) (fileEx : String → Bool) (localAppData : String) :
    Except String String :=
  if pathOk then Except.ok "sqlite3"
  else
    match (winPaths localAppData).find? fileEx with
    | some p => Except.ok p
    | none =>
      Except.error "sqlite3 command not found. Install SQLite: Windows choco install sqlite, macOS brew install sqlite, Linux apt-get install sqlite3"

/-- Megabyte view of a byte count, as in `getFileSizeMb` (lines 201-204). -/
def mbOf (bytes : Nat) : ℚ := (bytes : ℚ) / (1024 * 1024)

/-- The value returned by `vacuumDatabase`: the measured sizes. -/
structure VacuumResult where
  beforeMb : ℚ
  afterMb : ℚ
deriving DecidableEq

/-- `vacuumDatabase` (lines 230-248): measure the file size, run VACUUM
(failing only when the engine invocation itself fails), measure again, print
both sizes and their difference, return both sizes.  The body compares
`afterMb` with `beforeMb` only to print the saving; the result is `ok`
whatever their relative order. -/
def vacuumDatabase (engineOk : Bool) (beforeBytes afterBytes : Nat) :
    Except String VacuumResult :=
  if engineOk then Except.ok ⟨mbOf beforeBytes, mbOf afterBytes⟩
  else
    Except.error "Failed to run VACUUM: Make sure Cursor/VS Code is closed before running this script."

/-- Modelled behaviour of JavaScript `parseInt(s, 10)`: skip surrounding
whitespace, read an optional sign, then the longest leading run of decimal
digits; `none` models `NaN` (no digit found). -/
def digitsVal (l : List Char) : Nat :=
  l.foldl (fun acc c => acc * 10 + (c.toNat - 48)) 0

/-- See `digitsVal`; the sign-and-digits part of `parseInt(s, 10)`. -/
def jsParseInt (s : String) : Option Int :=
  let core : List Char → Option Int := fun cs =>
    let ds := cs.takeWhile (fun c => c.isDigit)
    if ds.isEmpty then none else some (digitsVal ds : Int)
  match (jsTrim s).data with
  | [] => none
  | c :: rest =>
    if c = '-' then (core rest).map (fun n => -n)
    else if c = '+' then core rest
    else core (c :: rest)

/-- `PruneOptions` (lines 37-48); `thresholdMb` is `Option` because
`parseInt` may produce `NaN`, and `keepLast` is stored as the positive `Nat`
the guard on line 93 admits. -/
structure PruneOptions where
  workspace : Bool
  global : Bool
  thresholdMb : Option Int
  analyze : Bool
  checkIntegrity : Bool
  globalOnlyIntegrity : Bool
  countCategories : Bool
  deleteKeysPattern : Option String
  deleteTable : String
  keepLast : Option Nat
deriving DecidableEq

/-- The defaults of `parseArgs` (lines 52-63). -/
def defaultOptions : PruneOptions :=
  { workspace := true, global := false, thresholdMb := some 50, analyze := false,
    checkIntegrity := false, globalOnlyIntegrity := false, countCategories := false,
    deleteKeysPattern := none, deleteTable := "ItemTable", keepLast := none }

/-- The argument loop of `parseArgs` (lines 65-96) as structural recursion on
the remaining arguments.  A value-taking flag in last position (no next
argument) matches none of the guarded branches and is skipped, exactly as the
`i + 1 < args.length` guards behave. -/
def parseLoop (o : PruneOptions) : List String → PruneOptions
  | [] => o
  | a :: rest =>
    if a = "--workspace" then parseLoop { o with workspace := true } rest
    else if a = "--global" then parseLoop { o with global := true } rest
    else if a = "--analyze" then parseLoop { o with analyze := true } rest
    else if a = "--check-integrity" then parseLoop { o with checkIntegrity := true } rest
    else if a = "--global-only" then parseLoop { o with globalOnlyIntegrity := true } rest
    else if a = "--count-categories" then parseLoop { o with countCategories := true } rest
    else if a = "--threshold" then
      match rest with
      | v :: rest2 => parseLoop { o with thresholdMb := jsParseInt v } rest2
      | [] => o
    else if a = "--table" then
      match rest with
      | v :: rest2 =>
        parseLoop (if ALLOWED_TABLES.contains v then { o with deleteTable := v } else o) rest2
      | [] => o
    else if a = "--delete-keys" then
      match rest with
      | v :: rest2 => parseLoop { o with deleteKeysPattern := some v } rest2
      | [] => o
    else if a = "--keep-last" then
      match rest with
      | v :: rest2 =>
        parseLoop
          (match jsParseInt v with
           | some n => if 0 < n then { o with keepLast := some n.toNat } else o
           | none => o) rest2
      | [] => o
    else parseLoop o rest

/-- `parseArgs` (lines 50-99): defaults, then the flag loop. -/
def parseArgs (args : List String) : PruneOptions := parseLoop defaultOptions args

/-- The vacuum-run portion of `main` (lines 536-563): when `workspace` is set,
every discovered database is processed; the global-only branch additionally
requires `global && !workspace`. -/
def mainVacuumTargets (o : PruneOptions) (allDbs : List String) (globalPath : Option String) :
    List String :=
  (if o.workspace then allDbs else []) ++
    (if o.global && !o.workspace then globalPath.toList else [])

/-- The `--delete-keys` portion of the `--analyze` branch of `main`
(lines 523-526): when analysing and a pattern was given, run
`deleteKeysAndVacuum` on the global database with the parsed table and
retention.  (Only the delete operation is traced here; the read-only queries
of `analyzeGlobalStateVscdb` would only add further SQL events.) -/
def mainAnalyzeDelete (o : PruneOptions) (db : Db) : Db × List Event :=
  if o.analyze then
    match o.deleteKeysPattern with
    | some p => deleteKeysAndVacuum db p o.deleteTable o.keepLast
    | none => (db, [])
  else (db, [])

/-- Every occurrence of `--keep-last` in the argument list is followed by a
value that does not parse to a positive integer. -/
def keepLastSafeB : List String → Bool
  | a :: v :: rest =>
    (if a = "--keep-last" then
       match jsParseInt v with
       | some n => decide (n ≤ 0)
       | none => true
     else true) && keepLastSafeB (v :: rest)
  | _ => true

/-- Modelled from the spec: how the external SQL engine lexes the body of a
single-quoted string literal — the body runs to the first quote that is not
doubled; a doubled quote denotes one literal quote character.  Returns the
decoded body and the remaining input, `none` for an unterminated literal. -/
def lexLitBody : List Char → Option (List Char × List Char)
  | [] => none
  | c :: rest =>
    if c = sqc then
      match rest with
      | d :: rest2 =>
        if d = sqc then (lexLitBody rest2).map (fun pr => (sqc :: pr.1, pr.2))
        else some ([], rest)
      | [] => some ([], [])
    else (lexLitBody rest).map (fun pr => (c :: pr.1, pr.2))

/-- Modelled from the spec: lex one single-quoted SQL string literal from the
head of the input; see `lexLitBody`. -/
def lexSqlLit (l : List Char) : Option (List Char × List Char) :=
  match l with
  | c :: rest => if c = sqc then lexLitBody rest else none
  | [] => none

lemma getTable_eq_nil (db : Db) {t : String} (h1 : t ≠ "ItemTable") (h2 : t ≠ "cursorDiskKV") :
    db.getTable t = [] := by
  simp [Db.getTable, h1, h2]

lemma getTable_setTable_self (db : Db) (rows : List Row) {t : String}
    (h : t = "ItemTable" ∨ t = "cursorDiskKV") :
    (db.setTable t rows).getTable t = rows := by
  rcases h with h | h <;> subst h <;> simp [Db.getTable, Db.setTable]

lemma getTable_setTable_other (db : Db) (rows : List Row) (t u : String) (h : u ≠ t) :
    (db.setTable t rows).getTable u = db.getTable u := by
  by_cases h1 : t = "ItemTable"
  · subst h1
    simp [Db.setTable, Db.getTable, h]
  · by_cases h2 : t = "cursorDiskKV"
    · subst h2
      simp [Db.setTable, Db.getTable, h1, h]
    · simp [Db.setTable, h1, h2]

lemma filter_p_of_filter_notp (p q : Row → Bool) (l : List Row)
    (hq : ∀ r, p r = true → q r = false) :
    (l.filter q).filter p = [] := by
  rw [List.filter_filter]
  rw [List.eq_nil_iff_forall_not_mem]
  intro r hr
  rw [List.mem_filter] at hr
  have h2 := hr.2
  rw [Bool.and_eq_true] at h2
  have := hq r h2.1
  rw [this] at h2
  exact absurd h2.2 (by simp)

lemma length_filter_mem_rowid :
    ∀ (M : List Row) (S : List Nat), (M.map Row.rowid).Nodup → S.Nodup →
      (∀ x ∈ S, x ∈ M.map Row.rowid) →
      (M.filter (fun r => decide (r.rowid ∈ S))).length = S.length := by
  intro M
  induction M with
  | nil =>
    intro S _ _ hsub
    have hS : S = [] := List.eq_nil_iff_forall_not_mem.mpr fun x hx => by
      simpa using hsub x hx
    simp [hS]
  | cons r M ih =>
    intro S hM hS hsub
    rw [List.map_cons, List.nodup_cons] at hM
    obtain ⟨hr, hM2⟩ := hM
    by_cases hmem : r.rowid ∈ S
    · have hfe : M.filter (fun x => decide (x.rowid ∈ S))
          = M.filter (fun x => decide (x.rowid ∈ S.erase r.rowid)) := by
        apply List.filter_congr
        intro x hx
        have hne : x.rowid ≠ r.rowid := fun he => hr (he ▸ List.mem_map_of_mem Row.rowid hx)
        simp [List.mem_erase_of_ne hne]
      have hsub2 : ∀ x ∈ S.erase r.rowid, x ∈ M.map Row.rowid := by
        intro x hx
        obtain ⟨hxne, hxS⟩ := hS.mem_erase_iff.mp hx
        have := hsub x hxS
        rw [List.map_cons, List.mem_cons] at this
        exact this.resolve_left hxne
      have ihv := ih (S.erase r.rowid) hM2 (hS.erase r.rowid) hsub2
      have hpos : 0 < S.length := List.length_pos_of_mem hmem
      rw [List.filter_cons, if_pos (by simp [hmem]), List.length_cons, hfe, ihv,
        List.length_erase_of_mem hmem]
      omega
    · have hsub2 : ∀ x ∈ S, x ∈ M.map Row.rowid := by
        intro x hxS
        have := hsub x hxS
        rw [List.map_cons, List.mem_cons] at this
        rcases this with hh | hh
        · exact absurd (hh ▸ hxS) hmem
        · exact hh
      rw [List.filter_cons, if_neg (by simp [hmem])]
      exact ih S hM2 hS hsub2

lemma keepRowids_nodup (tbl : List Row) (pattern : String) (n : Nat)
    (hnd : ((tbl.filter (fun r => likeMatch pattern r.key)).map Row.rowid).Nodup) :
    (keepRowids tbl pattern n).Nodup := by
  apply List.Nodup.sublist (List.take_sublist n _)
  exact (List.perm_insertionSort _ _).symm.nodup hnd

lemma keepRowids_subset (tbl : List Row) (pattern : String) (n : Nat) :
    ∀ x ∈ keepRowids tbl pattern n,
      x ∈ (tbl.filter (fun r => likeMatch pattern r.key)).map Row.rowid := by
  intro x hx
  have h1 : x ∈ sortDesc ((tbl.filter (fun r => likeMatch pattern r.key)).map Row.rowid) :=
    (List.take_sublist n _).subset hx
  exact (List.perm_insertionSort _ _).mem_iff.mp h1

lemma keepRowids_length (tbl : List Row) (pattern : String) (n : Nat) :
    (keepRowids tbl pattern n).length
      = min n ((tbl.filter (fun r => likeMatch pattern r.key)).map Row.rowid).length := by
  unfold keepRowids
  rw [List.length_take]
  congr 1
  exact (List.perm_insertionSort _ _).length_eq

lemma keepRowids_ge (tbl : List Row) (pattern : String) (n : Nat) :
    ∀ x ∈ keepRowids tbl pattern n,
      ∀ y ∈ (tbl.filter (fun r => likeMatch pattern r.key)).map Row.rowid,
        y ∉ keepRowids tbl pattern n → x ≥ y := by
  intro x hx y hy hyn
  have hsort : List.Sorted (fun a b => a ≥ b)
      (sortDesc ((tbl.filter (fun r => likeMatch pattern r.key)).map Row.rowid)) :=
    List.sorted_insertionSort _ _
  have hyS : y ∈ sortDesc ((tbl.filter (fun r => likeMatch pattern r.key)).map Row.rowid) :=
    (List.perm_insertionSort _ _).mem_iff.mpr hy
  rw [← List.take_append_drop n
      (sortDesc ((tbl.filter (fun r => likeMatch pattern r.key)).map Row.rowid)),
    List.mem_append] at hyS
  rcases hyS with hyT | hyD
  · exact absurd hyT hyn
  · exact hsort.rel_of_mem_take_of_mem_drop hx hyD

lemma table_allowed_of_filter_ne (db : Db) (pattern : String) {table : String}
    (h : ((db.getTable table).filter (fun r => likeMatch pattern r.key)).length ≠ 0) :
    table = "ItemTable" ∨ table = "cursorDiskKV" := by
  by_contra hc
  push_neg at hc
  rw [getTable_eq_nil db hc.1 hc.2] at h
  exact h rfl

lemma deleteKeysAndVacuum_db_none (db : Db) (pattern table : String) :
    (deleteKeysAndVacuum db pattern table none).1
      = if ((db.getTable table).filter (fun r => likeMatch pattern r.key)).length = 0 then db
        else db.setTable table
          ((db.getTable table).filter (fun r => !(likeMatch pattern r.key))) := by
  rw [deleteKeysAndVacuum]
  by_cases h : ((db.getTable table).filter (fun r => likeMatch pattern r.key)).length = 0 <;>
    simp [h]

lemma deleteKeysAndVacuum_db_some (db : Db) (pattern table : String) (n : Nat) :
    (deleteKeysAndVacuum db pattern table (some n)).1
      = if ((db.getTable table).filter (fun r => likeMatch pattern r.key)).length = 0
            ∨ ((db.getTable table).filter (fun r => likeMatch pattern r.key)).length - n = 0
        then db
        else db.setTable table
          ((db.getTable table).filter
            (fun r => !(likeMatch pattern r.key)
              || decide (r.rowid ∈ keepRowids (db.getTable table) pattern n))) := by
  rw [deleteKeysAndVacuum]
  by_cases h0 : ((db.getTable table).filter (fun r => likeMatch pattern r.key)).length = 0
  · simp [h0]
  · by_cases h1 : ((db.getTable table).filter (fun r => likeMatch pattern r.key)).length - n = 0 <;>
      simp [h0, h1]

/-- C1: for a prune with retention count `n` over a table whose rowids are
distinct (SQLite guarantees rowid uniqueness), with pre-delete matched count
`C`: the post-delete matched count is `min C n`, exactly `C - n` (truncated
subtraction, i.e. `max(0, C - n)`) matching rows are deleted, and every
retained matching row has a rowid ≥ the rowid of every deleted matching row:
the `n` most recent matches are preserved. -/
theorem c1_prune_keepLast_retention (db : Db) (pattern table : String) (n : Nat)
    (hnd : ((db.getTable table).map Row.rowid).Nodup) :
    (((deleteKeysAndVacuum db pattern table (some n)).1.getTable table).filter
        (fun r => likeMatch pattern r.key)).length
      = min ((db.getTable table).filter (fun r => likeMatch pattern r.key)).length n ∧
    ((db.getTable table).filter (fun r => likeMatch pattern r.key)).length
        - (((deleteKeysAndVacuum db pattern table (some n)).1.getTable table).filter
            (fun r => likeMatch pattern r.key)).length
      = ((db.getTable table).filter (fun r => likeMatch pattern r.key)).length - n ∧
    ∀ a ∈ ((deleteKeysAndVacuum db pattern table (some n)).1.getTable table).filter
        (fun r => likeMatch pattern r.key),
      ∀ b ∈ (db.getTable table).filter (fun r => likeMatch pattern r.key),
        b ∉ ((deleteKeysAndVacuum db pattern table (some n)).1.getTable table).filter
            (fun r => likeMatch pattern r.key) →
          b.rowid ≤ a.rowid := by
  rw [deleteKeysAndVacuum_db_some]
  by_cases h0 : ((db.getTable table).filter (fun r => likeMatch pattern r.key)).length = 0
  · rw [if_pos (Or.inl h0)]
    refine ⟨by omega, by omega, ?_⟩
    intro a _ b hb hbn
    exact absurd hb hbn
  · by_cases h1 : ((db.getTable table).filter (fun r => likeMatch pattern r.key)).length - n = 0
    · rw [if_pos (Or.inr h1)]
      refine ⟨by omega, by omega, ?_⟩
      intro a _ b hb hbn
      exact absurd hb hbn
    · rw [if_neg (by tauto)]
      have hallow := table_allowed_of_filter_ne db pattern h0
      rw [getTable_setTable_self db _ hallow]
      have hpost : ((db.getTable table).filter
              (fun r => !(likeMatch pattern r.key)
                || decide (r.rowid ∈ keepRowids (db.getTable table) pattern n))).filter
            (fun r => likeMatch pattern r.key)
          = ((db.getTable table).filter (fun r => likeMatch pattern r.key)).filter
              (fun r => decide (r.rowid ∈ keepRowids (db.getTable table) pattern n)) := by
        rw [List.filter_filter, List.filter_filter]
        apply List.filter_congr
        intro x _
        cases hpx : likeMatch pattern x.key <;> simp [hpx]
      have hpreNodup :
          (((db.getTable table).filter (fun r => likeMatch pattern r.key)).map Row.rowid).Nodup :=
        List.Nodup.sublist ((List.filter_sublist _).map Row.rowid) hnd
      have hlen : (((db.getTable table).filter (fun r => likeMatch pattern r.key)).filter
            (fun r => decide (r.rowid ∈ keepRowids (db.getTable table) pattern n))).length
          = (keepRowids (db.getTable table) pattern n).length :=
        length_filter_mem_rowid _ _ hpreNodup
          (keepRowids_nodup _ _ _ hpreNodup) (keepRowids_subset _ _ _)
      have hklen := keepRowids_length (db.getTable table) pattern n
      rw [List.length_map] at hklen
      refine ⟨?_, ?_, ?_⟩
      · rw [hpost, hlen, hklen]
        omega
      · rw [hpost, hlen, hklen]
        omega
      · intro a ha b hb hbn
        rw [hpost] at ha hbn
        rw [List.mem_filter] at ha
        have haK : a.rowid ∈ keepRowids (db.getTable table) pattern n := by
          simpa using ha.2
        have hbK : b.rowid ∉ keepRowids (db.getTable table) pattern n := by
          intro hmem
          exact hbn (List.mem_filter.mpr ⟨hb, by simpa using hmem⟩)
        exact keepRowids_ge _ _ _ a.rowid haK b.rowid
          (List.mem_map_of_mem Row.rowid hb) hbK

/-- C5: a prune with no retention count deletes every matching row: after the
operation the count of rows of the target table matching the pattern is 0. -/
theorem c5_prune_delete_all_matches (db : Db) (pattern table : String) :
    (((deleteKeysAndVacuum db pattern table none).1.getTable table).filter
        (fun r => likeMatch pattern r.key)).length = 0 := by
  rw [deleteKeysAndVacuum_db_none]
  by_cases h0 : ((db.getTable table).filter (fun r => likeMatch pattern r.key)).length = 0
  · rw [if_pos h0]
    exact h0
  · rw [if_neg h0]
    have hallow := table_allowed_of_filter_ne db pattern h0
    rw [getTable_setTable_self db _ hallow]
    rw [filter_p_of_filter_notp _ _ _ (fun r hr => by simp [hr])]
    rfl

/-- C6: a prune never deletes or modifies rows that do not match the pattern:
the non-matching rows of the target table are exactly preserved (same rows,
same order), and every other table of the database is left unchanged. -/
theorem c6_prune_frame_effect (db : Db) (pattern table : String) (keepLast : Option Nat) :
    ((deleteKeysAndVacuum db pattern table keepLast).1.getTable table).filter
        (fun r => !(likeMatch pattern r.key))
      = (db.getTable table).filter (fun r => !(likeMatch pattern r.key)) ∧
    ∀ u : String, u ≠ table →
      (deleteKeysAndVacuum db pattern table keepLast).1.getTable u = db.getTable u := by
  rcases keepLast with _ | n
  · rw [deleteKeysAndVacuum_db_none]
    by_cases h0 : ((db.getTable table).filter (fun r => likeMatch pattern r.key)).length = 0
    · rw [if_pos h0]
      exact ⟨rfl, fun u _ => rfl⟩
    · rw [if_neg h0]
      have hallow := table_allowed_of_filter_ne db pattern h0
      constructor
      · rw [getTable_setTable_self db _ hallow, List.filter_filter]
        apply List.filter_congr
        intro x _
        simp
      · intro u hu
        exact getTable_setTable_other db _ table u hu
  · rw [deleteKeysAndVacuum_db_some]
    by_cases h0 : ((db.getTable table).filter (fun r => likeMatch pattern r.key)).length = 0
        ∨ ((db.getTable table).filter (fun r => likeMatch pattern r.key)).length - n = 0
    · rw [if_pos h0]
      exact ⟨rfl, fun u _ => rfl⟩
    · rw [if_neg h0]
      push_neg at h0
      have hallow := table_allowed_of_filter_ne db pattern h0.1
      constructor
      · rw [getTable_setTable_self db _ hallow, List.filter_filter]
        apply List.filter_congr
        intro x _
        cases hpx : likeMatch pattern x.key <;> simp [hpx]
      · intro u hu
        exact getTable_setTable_other db _ table u hu

lemma deleteAll_post_zero (db : Db) (pattern table : String) :
    (((deleteKeysAndVacuum db pattern table none).1.getTable table).filter
        (fun r => likeMatch pattern r.key)).length = 0 := by
  rw [deleteKeysAndVacuum_db_none]
  by_cases h0 : ((db.getTable table).filter (fun r => likeMatch pattern r.key)).length = 0
  · rw [if_pos h0]
    exact h0
  · rw [if_neg h0]
    have hallow := table_allowed_of_filter_ne db pattern h0
    rw [getTable_setTable_self db _ hallow]
    rw [filter_p_of_filter_notp _ _ _ (fun r hr => by simp [hr])]
    rfl

lemma discoverCount_append (t1 t2 : List Event) :
    discoverCount (t1 ++ t2) = discoverCount t1 + discoverCount t2 := by
  simp [discoverCount, List.filter_append]

lemma discoverCount_checkIntegrity (q i : String) :
    discoverCount (checkIntegrity q i).2 = 1 := by
  rw [checkIntegrity]
  by_cases h : jsTrim q = "ok" <;> simp [h, discoverCount]

lemma discoverCount_deleteKeys (db : Db) (pattern table : String) (keepLast : Option Nat) :
    discoverCount (deleteKeysAndVacuum db pattern table keepLast).2 = 1 := by
  rw [deleteKeysAndVacuum.eq_def]
  by_cases h0 : ((db.getTable table).filter (fun r => likeMatch pattern r.key)).length = 0
  · simp [h0, discoverCount]
  · rcases keepLast with _ | n
    · simp [h0, discoverCount]
    · by_cases h1 : ((db.getTable table).filter (fun r => likeMatch pattern r.key)).length - n = 0 <;>
        simp [h0, h1, discoverCount]

lemma mainIntegrityRun_go (dbs : List (String × String)) (acc : Nat × List Event) :
    discoverCount ((dbs.foldl
        (fun acc qi =>
          let r := checkIntegrity qi.1 qi.2
          (acc.1 + (if r.1 then 1 else 0), acc.2 ++ r.2)) acc)).2
      = discoverCount acc.2 + dbs.length := by
  induction dbs generalizing acc with
  | nil => simp
  | cons d t ih =>
    rw [List.foldl_cons, ih]
    simp only [discoverCount_append, discoverCount_checkIntegrity, List.length_cons]
    omega

lemma lexLitBody_quote_quote (T : List Char) :
    lexLitBody (sqc :: sqc :: T) = (lexLitBody T).map (fun pr => (sqc :: pr.1, pr.2)) := by
  rw [lexLitBody.eq_def]
  simp

lemma lexLitBody_other (c : Char) (hc : c ≠ sqc) (T : List Char) :
    lexLitBody (c :: T) = (lexLitBody T).map (fun pr => (c :: pr.1, pr.2)) := by
  rw [lexLitBody.eq_def]
  simp [hc]

lemma lexLitBody_close (d : Char) (hd : d ≠ sqc) (T : List Char) :
    lexLitBody (sqc :: d :: T) = some ([], d :: T) := by
  rw [lexLitBody.eq_def]
  simp [hd]

lemma lexLitBody_close_nil : lexLitBody [sqc] = some ([], []) := by
  rw [lexLitBody.eq_def]
  simp

lemma lexLitBody_roundtrip (p : List Char) (rest : List Char) (h : rest.head? ≠ some sqc) :
    lexLitBody ((p.map escChar).flatten ++ sqc :: rest) = some (p, rest) := by
  induction p with
  | nil =>
    rw [List.map_nil, List.flatten_nil, List.nil_append]
    cases rest with
    | nil => exact lexLitBody_close_nil
    | cons d t =>
      have hd : d ≠ sqc := by
        intro he
        exact h (by simp [he])
      exact lexLitBody_close d hd t
  | cons c cs ih =>
    rw [List.map_cons, List.flatten_cons, List.append_assoc]
    by_cases hc : c = sqc
    · subst hc
      rw [escChar, if_pos rfl, List.cons_append, List.cons_append, List.nil_append,
        lexLitBody_quote_quote, ih]
      rfl
    · rw [escChar, if_neg hc, List.cons_append, List.nil_append,
        lexLitBody_other c hc, ih]
      rfl

/-- C10: every key pattern reaches the SQL text only as a single-quoted
literal with embedded quotes doubled: lexing one SQL string literal from the
embedded `likeLiteral` recovers exactly the original pattern and stops right
at the following SQL text (so the pattern can neither terminate the literal
early nor inject further SQL), and the COUNT / DELETE statements issued by
`deleteKeysAndVacuum` and `countCategories` embed the pattern exactly through
`likeLiteral`. -/
theorem c10_pattern_escaped_in_sql (pattern table : String) (n : Nat) (rest : List Char)
    (h : rest.head? ≠ some sqc) :
    lexSqlLit ((likeLiteral pattern).data ++ rest) = some (pattern.data, rest) ∧
    countSql table pattern
      = "SELECT COUNT(*) FROM " ++ table ++ " WHERE key LIKE " ++ likeLiteral pattern ++ ";" ∧
    deleteAllSql table pattern
      = "DELETE FROM " ++ table ++ " WHERE key LIKE " ++ likeLiteral pattern ++ ";" ∧
    deleteKeepSql table pattern n
      = "DELETE FROM " ++ table ++ " WHERE key LIKE " ++ likeLiteral pattern ++
          " AND rowid NOT IN (SELECT rowid FROM " ++ table ++ " WHERE key LIKE " ++
          likeLiteral pattern ++ " ORDER BY rowid DESC LIMIT " ++ toString n ++ ");" := by
  refine ⟨?_, rfl, rfl, rfl⟩
  show lexSqlLit ((sqc :: ((pattern.data.map escChar).flatten ++ [sqc])) ++ rest) = _
  rw [List.cons_append, List.append_assoc, List.singleton_append, lexSqlLit, if_pos rfl]
  exact lexLitBody_roundtrip pattern.data rest h

/-- C10 witness: the three-character pattern a-quote-b (the quote written via
its code point) is embedded, lexed back unchanged, and the lexer stops at the
trailing semicolon. -/
theorem c10_witness :
    (([';'] : List Char).head? ≠ some sqc) ∧
    lexSqlLit ((likeLiteral (String.mk ['a', sqc, 'b'])).data ++ [';'])
      = some ((String.mk ['a', sqc, 'b']).data, [';']) :=
  ⟨by decide,
    (c10_pattern_escaped_in_sql (String.mk ['a', sqc, 'b']) "ItemTable" 1 [';'] (by decide)).1⟩

lemma parseLoop_workspace (o : PruneOptions) (args : List String) (h : o.workspace = true) :
    (parseLoop o args).workspace = true := by
  induction o, args using parseLoop.induct <;>
      (rw [parseLoop.eq_def]; try simp_all) <;>
    (split <;> try simp_all) <;>
    (split <;> simp_all)

lemma parseLoop_table (o : PruneOptions) (args : List String)
    (h : o.deleteTable ∈ ALLOWED_TABLES) :
    (parseLoop o args).deleteTable ∈ ALLOWED_TABLES := by
  induction o, args using parseLoop.induct <;>
      (rw [parseLoop.eq_def]; try simp_all) <;>
    (split <;> try simp_all) <;>
    (split <;> simp_all)

lemma keepLastSafeB_tail {x : String} {l : List String} (h : keepLastSafeB (x :: l) = true) :
    keepLastSafeB l = true := by
  cases l with
  | nil => rfl
  | cons y t =>
    simp only [keepLastSafeB, Bool.and_eq_true] at h
    exact h.2

lemma keepLastSafeB_head {v : String} {l : List String}
    (h : keepLastSafeB ("--keep-last" :: v :: l) = true) :
    ∀ n : Int, jsParseInt v = some n → n ≤ 0 := by
  intro n hn
  simp only [keepLastSafeB, Bool.and_eq_true, if_true] at h
  have h1 := h.1
  rw [hn] at h1
  simpa using h1

lemma parseLoop_keepLast (o : PruneOptions) (args : List String)
    (h : keepLastSafeB args = true) :
    (parseLoop o args).keepLast = o.keepLast := by
  induction o, args using parseLoop.induct <;>
      (rw [parseLoop.eq_def]; try simp_all) <;>
    first
    | (rename_i ih
       exact ih (keepLastSafeB_tail h))
    | (rename_i ih
       exact ih (keepLastSafeB_tail (keepLastSafeB_tail h)))
    | (rename_i v rest2 ih
       have h2 := keepLastSafeB_tail (keepLastSafeB_tail h)
       rcases hv : jsParseInt v with _ | n
       · simp only [hv] at ih ⊢
         exact ih h2
       · have hn := keepLastSafeB_head h n hv
         simp only [hv] at ih ⊢
         rw [if_neg (by omega)] at ih ⊢
         exact ih h2)
    | (rename_i ih
       have h2 := keepLastSafeB_tail (keepLastSafeB_tail h)
       split <;> simp_all
       done)

/-- C2 (amended): for every argument list, the parsed delete table is in the
allow-list: an invalid `--table` value is silently ignored (the default
`ItemTable` is kept), so SQL text is only ever constructed from an
allow-listed table name — but no failure is raised. -/
theorem c2_deleteTable_always_allowed (args : List String) :
    (parseArgs args).deleteTable ∈ ALLOWED_TABLES :=
  parseLoop_table defaultOptions args (by decide)

/-- C2 (counterexample): a prune invocation naming the table `evil` (not in
the allow-list) does not fail at all: `parseArgs` silently keeps the default
`ItemTable` and the operation proceeds to issue SQL statements, contradicting
the claim that it fails with an InvariantViolation before any SQL is issued. -/
theorem c2_invalid_table_still_issues_sql :
    (parseArgs ["--analyze", "--table", "evil", "--delete-keys", "k%"]).deleteTable
      = "ItemTable" ∧
    "evil" ∉ ALLOWED_TABLES ∧
    (mainAnalyzeDelete (parseArgs ["--analyze", "--table", "evil", "--delete-keys", "k%"])
        (Db.mk [Row.mk 1 "k1" "v"] [])).2 ≠ [] := by
  decide

/-- C3 (amended): `vacuumDatabase` measures and returns the before and after
sizes; it succeeds whenever the engine invocation succeeds, performing no
comparison between the two sizes (a growth is not an error). -/
theorem c3_vacuum_returns_sizes_unchecked (beforeBytes afterBytes : Nat) :
    vacuumDatabase true beforeBytes afterBytes
      = Except.ok { beforeMb := mbOf beforeBytes, afterMb := mbOf afterBytes } := by
  rw [vacuumDatabase, if_pos rfl]

/-- C3 (counterexample): a run in which the file grows from 1 MB to 2 MB still
returns success with the two sizes — no InvariantViolation or any error is
raised for the post-vacuum size increase, contradicting the claim that the
operation verifies after ≤ before and treats a growth as a reportable logic
error. -/
theorem c3_vacuum_growth_not_an_error :
    vacuumDatabase true 1048576 2097152
      = Except.ok { beforeMb := 1, afterMb := 2 } ∧ (1 : ℚ) < 2 := by
  constructor
  · rw [vacuumDatabase, if_pos rfl]
    norm_num [mbOf]
  · norm_num

/-- C4: when the trimmed `quick_check` output is not exactly "ok",
`checkIntegrity` reports failure and its engine trace holds only the
discovery and the quick_check statement — `PRAGMA integrity_check` is never
invoked; moreover, in any run of `checkIntegrity`, the integrity_check
statement occurs in the trace only when quick_check returned "ok", and then
strictly after the quick_check statement. -/
theorem c4_quick_check_short_circuits (q i : String) (h : jsTrim q ≠ "ok") :
    (checkIntegrity q i).1 = false ∧
    (checkIntegrity q i).2 = [Event.discover, Event.sqlQuery "PRAGMA quick_check;"] ∧
    Event.sqlQuery "PRAGMA integrity_check;" ∉ (checkIntegrity q i).2 ∧
    (∀ q2 i2 : String,
      Event.sqlQuery "PRAGMA integrity_check;" ∈ (checkIntegrity q2 i2).2 →
        jsTrim q2 = "ok" ∧
        (checkIntegrity q2 i2).2
          = [Event.discover, Event.sqlQuery "PRAGMA quick_check;",
             Event.sqlQuery "PRAGMA integrity_check;"]) := by
  refine ⟨?_, ?_, ?_, ?_⟩
  · rw [checkIntegrity, if_neg h]
  · rw [checkIntegrity, if_neg h]
  · rw [checkIntegrity, if_neg h]
    simp
  · intro q2 i2 hm
    by_cases h2 : jsTrim q2 = "ok"
    · rw [checkIntegrity, if_pos h2]
      exact ⟨h2, rfl⟩
    · rw [checkIntegrity, if_neg h2] at hm
      simp at hm

/-- C4 witness: a corrupt quick_check output at a concrete input. -/
theorem c4_witness :
    (checkIntegrity "corrupt page 3" "x").1 = false ∧
    Event.sqlQuery "PRAGMA integrity_check;" ∉ (checkIntegrity "corrupt page 3" "x").2 :=
  ⟨(c4_quick_check_short_circuits "corrupt page 3" "x" (by decide)).1,
   (c4_quick_check_short_circuits "corrupt page 3" "x" (by decide)).2.2.1⟩

/-- C1 witness: three rows, two matching `bubbleId:%`, retention 1: the
post-delete matched count is `min 2 1 = 1`. -/
theorem c1_witness :
    (((Db.mk [Row.mk 1 "bubbleId:1" "v", Row.mk 2 "bubbleId:2" "v",
          Row.mk 3 "note" "v"] []).getTable "ItemTable").map Row.rowid).Nodup ∧
    (((deleteKeysAndVacuum
          (Db.mk [Row.mk 1 "bubbleId:1" "v", Row.mk 2 "bubbleId:2" "v",
            Row.mk 3 "note" "v"] []) "bubbleId:%" "ItemTable" (some 1)).1.getTable
          "ItemTable").filter (fun r => likeMatch "bubbleId:%" r.key)).length
      = min (((Db.mk [Row.mk 1 "bubbleId:1" "v", Row.mk 2 "bubbleId:2" "v",
            Row.mk 3 "note" "v"] []).getTable "ItemTable").filter
          (fun r => likeMatch "bubbleId:%" r.key)).length 1 :=
  ⟨by decide,
   (c1_prune_keepLast_retention
      (Db.mk [Row.mk 1 "bubbleId:1" "v", Row.mk 2 "bubbleId:2" "v",
        Row.mk 3 "note" "v"] []) "bubbleId:%" "ItemTable" 1 (by decide)).1⟩

/-- C6 witness: pruning `k%` in ItemTable leaves the cursorDiskKV table of a
concrete database untouched. -/
theorem c6_witness :
    ("cursorDiskKV" : String) ≠ "ItemTable" ∧
    (deleteKeysAndVacuum (Db.mk [Row.mk 1 "k1" "v"] [Row.mk 7 "other" "w"])
        "k%" "ItemTable" none).1.getTable "cursorDiskKV"
      = (Db.mk [Row.mk 1 "k1" "v"] [Row.mk 7 "other" "w"]).getTable "cursorDiskKV" :=
  ⟨by decide,
   (c6_prune_frame_effect (Db.mk [Row.mk 1 "k1" "v"] [Row.mk 7 "other" "w"])
      "k%" "ItemTable" none).2 "cursorDiskKV" (by decide)⟩

/-- C7 (amended): locating the engine first tries the command-search-path
probe, then the static fallback list in order, failing only when every probe
fails — but the result is not memoized: every `deleteKeysAndVacuum` and every
`checkIntegrity` call performs its own discovery, so a run over `k` databases
repeats the discovery `k` times. -/
theorem c7_discovery_fallback_no_memoization :
    (∀ (fileEx : String → Bool) (lad : String),
      getSqlite3Command true fileEx lad = Except.ok "sqlite3") ∧
    (∀ (fileEx : String → Bool) (lad p : String),
      (winPaths lad).find? fileEx = some p →
        getSqlite3Command false fileEx lad = Except.ok p) ∧
    (∀ (fileEx : String → Bool) (lad : String),
      (winPaths lad).find? fileEx = none →
        getSqlite3Command false fileEx lad
          = Except.error "sqlite3 command not found. Install SQLite: Windows choco install sqlite, macOS brew install sqlite, Linux apt-get install sqlite3") ∧
    (∀ (db : Db) (pattern table : String) (keepLast : Option Nat),
      discoverCount (deleteKeysAndVacuum db pattern table keepLast).2 = 1) ∧
    (∀ dbs : List (String × String),
      discoverCount (mainIntegrityRun dbs).2 = dbs.length) := by
  refine ⟨?_, ?_, ?_, ?_, ?_⟩
  · intro fileEx lad
    rw [getSqlite3Command, if_pos rfl]
  · intro fileEx lad p hp
    rw [getSqlite3Command, if_neg (by simp), hp]
  · intro fileEx lad hp
    rw [getSqlite3Command, if_neg (by simp), hp]
  · intro db pattern table keepLast
    exact discoverCount_deleteKeys db pattern table keepLast
  · intro dbs
    have hg := mainIntegrityRun_go dbs (0, [])
    simpa [mainIntegrityRun, discoverCount] using hg

/-- C7 witness: with the search-path probe failing and the first fallback
location present, discovery returns that fallback path. -/
theorem c7_witness :
    (winPaths "L").find? (fun p => p == "C:\\Program Files\\SQLite\\sqlite3.exe")
      = some "C:\\Program Files\\SQLite\\sqlite3.exe" ∧
    getSqlite3Command false (fun p => p == "C:\\Program Files\\SQLite\\sqlite3.exe") "L"
      = Except.ok "C:\\Program Files\\SQLite\\sqlite3.exe" :=
  ⟨by decide,
   c7_discovery_fallback_no_memoization.2.1
     (fun p => p == "C:\\Program Files\\SQLite\\sqlite3.exe") "L"
     "C:\\Program Files\\SQLite\\sqlite3.exe" (by decide)⟩

/-- C7 (counterexample): a single `--check-integrity` run over two databases
performs engine discovery twice — the discovery result is not cached for the
duration of the run, contradicting the memoization part of the claim. -/
theorem c7_two_operations_two_discoveries :
    ¬ (discoverCount (mainIntegrityRun [("ok", "ok"), ("ok", "ok")]).2 ≤ 1) := by
  decide

/-- C8: when every `--keep-last` occurrence carries a value that does not
parse to a positive integer, `parseArgs` leaves `keepLast = none` (no error is
raised — parsing is total), and the subsequent delete operation therefore
uses delete-all-matches semantics: afterwards no row of the target table
matches the pattern. -/
theorem c8_invalid_keepLast_is_delete_all (args : List String) (db : Db)
    (pattern table : String) (h : keepLastSafeB args = true) :
    (parseArgs args).keepLast = none ∧
    (((deleteKeysAndVacuum db pattern table (parseArgs args).keepLast).1.getTable
        table).filter (fun r => likeMatch pattern r.key)).length = 0 := by
  have hk : (parseArgs args).keepLast = none := parseLoop_keepLast defaultOptions args h
  refine ⟨hk, ?_⟩
  rw [hk]
  exact deleteAll_post_zero db pattern table

/-- C8 witness: `--keep-last 0` (zero is not positive) leaves the retention
unset and the concrete delete removes every matching row. -/
theorem c8_witness :
    keepLastSafeB ["--keep-last", "0"] = true ∧
    (parseArgs ["--keep-last", "0"]).keepLast = none :=
  ⟨by decide,
   (c8_invalid_keepLast_is_delete_all ["--keep-last", "0"] (Db.mk [] []) "k%" "ItemTable"
      (by decide)).1⟩

/-- C9: no command-line flag can unset `workspace` (it starts true and only
`--workspace` writes it, to true), so the global-only branch guard
`global && !workspace` is false for every parsed argument list and a vacuum
run processes every discovered database — `--global` included. -/
theorem c9_workspace_always_true (args : List String) (allDbs : List String)
    (globalPath : Option String) :
    (parseArgs args).workspace = true ∧
    ((parseArgs args).global && !(parseArgs args).workspace) = false ∧
    mainVacuumTargets (parseArgs args) allDbs globalPath = allDbs := by
  have hw : (parseArgs args).workspace = true := parseLoop_workspace defaultOptions args rfl
  refine ⟨hw, by simp [hw], ?_⟩
  simp [mainVacuumTargets, hw]
